import Mathlib

/-!
Shallow embedding of the openclaw-configurator core (src/utils/openclaw.ts and
the operation pipeline / menu engine described by its specification), together
with proofs of the behavioural properties stated in the specification.
-/

/-- A JSON value, used for untyped parts of the persisted configuration
document (unknown top-level keys, per-model settings objects). -/
inductive JsonValue where
  | null : JsonValue
  | bool : Bool → JsonValue
  | num : Int → JsonValue
  | str : String → JsonValue
  | arr : List JsonValue → JsonValue
  | obj : List (String × JsonValue) → JsonValue
deriving Repr

/-- A JSON object body: an ordered association list of fields. -/
abbrev JsonObj := List (String × JsonValue)

/-- The closed provider enumeration `SUPPORTED_PROVIDERS` of openclaw.ts. -/
inductive SupportedProvider where
  | openai
  | anthropic
  | google
  | minimax
  | zai
  | moonshot
  | deepseek
deriving DecidableEq, Repr

/-- The string prefix identifying each provider (the TS enum literal). -/
def SupportedProvider.name : SupportedProvider → String
  | .openai => "openai"
  | .anthropic => "anthropic"
  | .google => "google"
  | .minimax => "minimax"
  | .zai => "zai"
  | .moonshot => "moonshot"
  | .deepseek => "deepseek"

/-- Constant `SUPPORTED_PROVIDERS`, in the enumeration order of the source. -/
def SUPPORTED_PROVIDERS : List SupportedProvider :=
  [.openai, .anthropic, .google, .minimax, .zai, .moonshot, .deepseek]

/-- Interface `OpenclawModel`: one entry of the live model registry. -/
structure OpenclawModel where
  key : String
  name : String
  input : String
  contextWindow : Nat
  local_ : Bool
  available : Bool
  tags : List String
  missing : Bool
deriving DecidableEq, Repr

/-- Union `ApiType` from openclaw.ts. -/
inductive ApiType where
  | openaiCompletions
  | anthropicMessages
deriving DecidableEq, Repr

/-- Interface `VendorModel`: one static catalog entry of a vendor. -/
structure VendorModel where
  name : String
  provider : SupportedProvider
  api : Option ApiType := none
deriving DecidableEq, Repr

/-- Interface `VendorFilter`: allowed providers plus static catalog of a vendor. -/
structure VendorFilter where
  providers : List SupportedProvider
  models : List VendorModel
deriving DecidableEq, Repr

/-- Constant `TWELVE_API_MODELS`: the static catalog of the "12api" vendor. -/
def TWELVE_API_MODELS : List VendorModel :=
  [ { name := "claude-haiku-4-5-20251001", provider := .anthropic },
    { name := "claude-opus-4-5-20251101", provider := .anthropic },
    { name := "claude-opus-4-6", provider := .anthropic },
    { name := "claude-sonnet-4-5-20250929", provider := .anthropic },
    { name := "gpt-5.1", provider := .openai },
    { name := "gpt-5.2", provider := .openai },
    { name := "MiniMax-M2.5", provider := .minimax, api := some .anthropicMessages },
    { name := "glm-5", provider := .zai, api := some .anthropicMessages },
    { name := "kimi-k2.5", provider := .moonshot, api := some .anthropicMessages },
    { name := "deepseek-v3.2", provider := .deepseek, api := some .openaiCompletions },
    { name := "gemini-3-pro-preview", provider := .google },
    { name := "gemini-3-flash-preview", provider := .google } ]

/-- The `"12api"` entry of `VENDOR_FILTERS`: all providers allowed, filtered
to the static catalog. -/
def twelveApiFilter : VendorFilter :=
  { providers := SUPPORTED_PROVIDERS, models := TWELVE_API_MODELS }

/-- The `"other"` entry of `VENDOR_FILTERS`: the empty escape-hatch filter. -/
def otherFilter : VendorFilter :=
  { providers := [], models := [] }

/-- Record `VENDOR_FILTERS`, mapping vendor ids to their filters. -/
def VENDOR_FILTERS (vendor : String) : Option VendorFilter :=
  if vendor = "12api" then some twelveApiFilter
  else if vendor = "other" then some otherFilter
  else none

/-- JavaScript `key.startsWith(p)`: `p` is a literal character prefix of `key`. -/
def strStartsWith (key p : String) : Bool :=
  p.data.isPrefixOf key.data

/-- Function `isSupportedProvider(key, allowedProviders?)`: the first provider of the
allowed list (default: the full enumeration) whose name followed by `/` is a
prefix of `key`. -/
def isSupportedProvider (key : String)
    (allowedProviders : Option (List SupportedProvider) := none) :
    Option SupportedProvider :=
  let providers := allowedProviders.getD SUPPORTED_PROVIDERS
  providers.find? (fun provider => strStartsWith key (provider.name ++ "/"))

/-- Characters after the first `/`, or `none` when no `/` occurs
(`key.indexOf("/")` returning `-1`). -/
def afterFirstSlash : List Char → Option (List Char)
  | [] => none
  | c :: cs => if c = '/' then some cs else afterFirstSlash cs

/-- Function `getModelSuffix(key)`: the substring after the first `/`, or the whole
key when no `/` exists. -/
def getModelSuffix (key : String) : String :=
  match afterFirstSlash key.data with
  | some cs => String.mk cs
  | none => key

/-- Function `findVendorModel(vendor, modelKey)`: catalog entry whose name matches the
computed suffix and whose provider matches the provider resolved from the key. -/
def findVendorModel (vendor : String) (modelKey : String) : Option VendorModel :=
  match VENDOR_FILTERS vendor with
  | none => none
  | some filter =>
    let suffix := getModelSuffix modelKey
    let provider := isSupportedProvider modelKey
    filter.models.find? (fun m => decide (m.name = suffix ∧ some m.provider = provider))

/-- The canonical `provider/name` key of a catalog entry. -/
def vmKey (vm : VendorModel) : String :=
  vm.provider.name ++ "/" ++ vm.name

/-- The synthetic registry entry pushed by `filterModelsByVendor` for a catalog
entry missing from the live registry. -/
def syntheticEntry (vm : VendorModel) : OpenclawModel :=
  { key := vmKey vm
    name := vm.name
    input := ""
    contextWindow := 0
    local_ := false
    available := true
    tags := []
    missing := false }

/-- The filter callback of `filterModelsByVendor`, which inspects only the
key of the entry: provider prefix must be allowed, and (when the vendor catalog is
non-empty) the suffix must be a catalog model name. -/
def predKey (filter : VendorFilter) (key : String) : Bool :=
  match isSupportedProvider key (some filter.providers) with
  | none => false
  | some _ =>
    if filter.models.length = 0 then true
    else (filter.models.map (·.name)).contains (getModelSuffix key)

/-- The filter callback applied to a registry entry. -/
def vendorPred (filter : VendorFilter) (m : OpenclawModel) : Bool :=
  predKey filter m.key

/-- The append loop of `filterModelsByVendor`: walk the catalog in order,
skipping entries whose key is already known, pushing a synthetic entry and
recording its key otherwise. -/
def appendMissing : List VendorModel → List String → List OpenclawModel
  | [], _ => []
  | vm :: rest, keys =>
    if keys.contains (vmKey vm) then appendMissing rest keys
    else syntheticEntry vm :: appendMissing rest (vmKey vm :: keys)

/-- Function `filterModelsByVendor(models, vendor)`: unknown vendor or the empty
escape-hatch filter return the input unchanged; otherwise filter the registry
by the vendor predicate and append catalog entries missing from the registry. -/
def filterModelsByVendor (models : List OpenclawModel) (vendor : String) :
    List OpenclawModel :=
  match VENDOR_FILTERS vendor with
  | none => models
  | some filter =>
    if filter.providers.length == 0 && filter.models.length == 0 then models
    else
      let existingKeys := models.map (·.key)
      let filtered := models.filter (vendorPred filter)
      filtered ++ appendMissing filter.models existingKeys

/-- Modelled from the wording of the spec for the synthesis step (stated for
comparison with the append loop of the implementation): append one synthetic entry
for every catalog entry whose `provider/name` key is not already present
among the given keys, preserving catalog order and skipping duplicates by
key. -/
def specSynthesize : List VendorModel → List String → List OpenclawModel
  | [], _ => []
  | vm :: rest, present =>
    if vmKey vm ∈ present then specSynthesize rest present
    else syntheticEntry vm :: specSynthesize rest (vmKey vm :: present)

/-- Interface `ProviderModelEntry` from openclaw.ts. -/
structure ProviderModelEntry where
  id : String
  name : String
deriving DecidableEq, Repr

/-- Interface `ProviderConfig`: persisted configuration of one provider. -/
structure ProviderConfig where
  baseUrl : String
  api : Option ApiType := none
  models : List ProviderModelEntry := []
deriving DecidableEq, Repr

/-- JavaScript object lookup `r[k]` on an association list. -/
def recordGet (r : List (String × α)) (k : String) : Option α :=
  (r.find? (fun e => e.1 == k)).map (·.2)

/-- JavaScript object assignment `r[k] = v`: overwrite the existing field in
place, or append a new field at the end. -/
def recordSet (r : List (String × α)) (k : String) (v : α) : List (String × α) :=
  match r with
  | [] => [(k, v)]
  | (k', v') :: rest =>
    if k' = k then (k, v) :: rest else (k', v') :: recordSet rest k v

/-- The `models` subtree of the persisted document. -/
structure ModelsSection where
  mode : Option String := none
  providers : Option (List (String × ProviderConfig)) := none
deriving Repr

/-- The `agents.defaults.model` subtree of the persisted document. -/
structure ModelSection where
  primary : Option String := none
deriving Repr

/-- The `agents.defaults` subtree of the persisted document. -/
structure AgentsDefaults where
  model : Option ModelSection := none
  models : Option (List (String × JsonObj)) := none
deriving Repr

/-- The `agents` subtree of the persisted document. -/
structure AgentsSection where
  defaults : Option AgentsDefaults := none
deriving Repr

/-- The `meta` subtree of the persisted document. -/
structure MetaSection where
  lastTouchedAt : Option String := none
deriving Repr

/-- Interface `OpenclawConfig`: the persisted document. Field `extra` holds the unknown
top-level keys admitted by the `[key: string]: unknown` index signature; the
document is read, modified and rewritten as a whole, so these round-trip. -/
structure OpenclawConfig where
  models : Option ModelsSection := none
  agents : Option AgentsSection := none
  meta : Option MetaSection := none
  extra : List (String × JsonValue) := []
deriving Repr

/-- Function `setProviderConfig(provider, config)`, as the pure transform a single
read-modify-write cycle applies to the persisted document: ensure the `models`
subtree exists, set `models.mode` to `"merge"`, ensure `models.providers`
exists, and store the config of the provider under its key. -/
def setProviderConfig (provider : SupportedProvider) (config : ProviderConfig)
    (openclawConfig : OpenclawConfig) : OpenclawConfig :=
  let models := openclawConfig.models.getD {}
  let providers := models.providers.getD []
  { openclawConfig with
      models := some { models with
        mode := some "merge"
        providers := some (recordSet providers provider.name config) } }

/-- Function `setModel(modelKey)`, as the pure transform a single read-modify-write
cycle applies to the persisted document: ensure the `agents.defaults`
structure exists, set the primary model, and create the per-model settings
entry if absent. -/
def setModel (modelKey : String) (openclawConfig : OpenclawConfig) :
    OpenclawConfig :=
  let agents := openclawConfig.agents.getD {}
  let defaults := agents.defaults.getD {}
  let model := defaults.model.getD {}
  let models := defaults.models.getD []
  let models' :=
    if (recordGet models modelKey).isNone then recordSet models modelKey []
    else models
  { openclawConfig with
      agents := some { agents with
        defaults := some { defaults with
          model := some { model with primary := some modelKey }
          models := some models' } } }

/-- Function `triggerGatewayRestart()`, as the pure transform a single read-modify-write
cycle applies to the persisted document; the current wall-clock ISO timestamp
is passed in as `now`. -/
def triggerGatewayRestart (now : String) (openclawConfig : OpenclawConfig) :
    OpenclawConfig :=
  let meta := openclawConfig.meta.getD {}
  { openclawConfig with meta := some { meta with lastTouchedAt := some now } }

/-- Function `getPrimaryModel()`: read `agents.defaults.model.primary` from the
document. -/
def getPrimaryModel (config : OpenclawConfig) : Option String :=
  ((config.agents.bind (·.defaults)).bind (·.model)).bind (·.primary)

/-- Function `getConfiguredModels()`: the keys of `agents.defaults.models`. -/
def getConfiguredModels (config : OpenclawConfig) : List String :=
  match (config.agents.bind (·.defaults)).bind (·.models) with
  | none => []
  | some models => models.map (·.1)

/-- The per-model settings entry stored for `modelKey` in
`agents.defaults.models`, when present. -/
def modelEntry (config : OpenclawConfig) (modelKey : String) : Option JsonObj :=
  ((config.agents.bind (·.defaults)).bind (·.models)).bind
    (fun models => recordGet models modelKey)

/-- Modelled from the spec: an `Operation` of the Operation Pipeline (module
`@/operations`, not present in the sources) — a named configuration-mutation
step whose `apply` maps the persisted document to a new document or a
failure message. -/
structure Operation where
  name : String
  apply : OpenclawConfig → Except String OpenclawConfig

/-- The reported outcome of a pipeline run: success, or the name of the
failing operation together with its error message. -/
inductive PipelineOutcome where
  | success : PipelineOutcome
  | failed (opName : String) (msg : String) : PipelineOutcome
deriving DecidableEq, Repr

/-- Modelled from the spec: the iteration step of `runOperations` — execute
the operations in order against the threaded document, stopping at the first
failure and reporting the name of the failing operation. -/
def runOpsAux : List Operation → OpenclawConfig → OpenclawConfig × PipelineOutcome
  | [], doc => (doc, .success)
  | op :: rest, doc =>
    match op.apply doc with
    | .ok doc' => runOpsAux rest doc'
    | .error e => (doc, .failed op.name e)

/-- Modelled from the spec: `runOperations(context, operations)` (module
`@/operations`, not present in the sources). Operations run strictly in
order; the first failure stops the iteration; if at least one operation
started, the finalization step `triggerGatewayRestart` runs unconditionally,
stamping `now` into `meta.lastTouchedAt`. -/
def runOperations (ops : List Operation) (doc : OpenclawConfig) (now : String) :
    OpenclawConfig × PipelineOutcome :=
  match ops with
  | [] => (doc, .success)
  | _ :: _ =>
    let r := runOpsAux ops doc
    (triggerGatewayRestart now r.1, r.2)

/-- Sequential application of a list of operations, succeeding only when every
operation succeeds; used to describe the state reached by a successful
pipeline prefix. -/
def applyAll : List Operation → OpenclawConfig → Except String OpenclawConfig
  | [], doc => .ok doc
  | op :: rest, doc =>
    match op.apply doc with
    | .ok doc' => applyAll rest doc'
    | .error e => .error e

/-- Modelled from the spec: the EXIT sentinel value of the Menu Engine
(module `./menu`, not present in the sources). -/
def MENU_EXIT : String := "__MENU_EXIT__"

/-- Modelled from the spec: one labeled menu item, optionally carrying an
action over the menu context. -/
structure MenuItem (σ : Type) where
  label : String
  value : String
  action : Option (σ → σ) := none

/-- Modelled from the spec: a menu configuration. -/
structure MenuConfig (σ : Type) where
  message : String
  items : List (MenuItem σ)
  loop : Bool := false
  context : σ

/-- An observable event of a menu run: a rendering of the item list, or the
invocation of the action attached to the item selected by value `v`. -/
inductive MenuEvent where
  | render : MenuEvent
  | invoke (v : String) : MenuEvent
deriving DecidableEq, Repr

/-- The terminal outcome of a menu run. -/
inductive MenuOutcome where
  | selected (v : String) : MenuOutcome
  | exited : MenuOutcome
  | cancelled : MenuOutcome
deriving DecidableEq, Repr

/-- Modelled from the spec: `runMenu(config)` (module `./menu`, not present
in the sources), driven by a script of user selections (an empty script is a
prompt cancellation). Each round renders the item list; choosing the EXIT
sentinel terminates without invoking any action; otherwise the selected
action of the selected item (if any) is invoked on the context, and with `loop` set the
same item list is rendered again, else the selected value is returned. The
run yields the event trace, the outcome and the final context. -/
def runMenu (cfg : MenuConfig σ) (script : List String) :
    List MenuEvent × MenuOutcome × σ :=
  match script with
  | [] => ([.render], .cancelled, cfg.context)
  | v :: rest =>
    if v = MENU_EXIT then ([.render], .exited, cfg.context)
    else
      match (cfg.items.find? (fun it => it.value == v)).bind (·.action) with
      | some act =>
        if cfg.loop then
          let r := runMenu { cfg with context := act cfg.context } rest
          (.render :: .invoke v :: r.1, r.2.1, r.2.2)
        else ([.render, .invoke v], .selected v, act cfg.context)
      | none =>
        if cfg.loop then
          let r := runMenu cfg rest
          (.render :: r.1, r.2.1, r.2.2)
        else ([.render], .selected v, cfg.context)

/-- A concrete provider-writing operation, as built by
`createSetProviderConfig` for the "12api" gateway. -/
def opSetProvider : Operation :=
  { name := "setProviderConfig"
    apply := fun doc =>
      .ok (setProviderConfig .anthropic { baseUrl := "https://cdn.12ai.org" } doc) }

/-- A concrete credential-writing operation that fails, as `createSetApiKey`
does when the external subcommand exits non-zero. -/
def opSetApiKey : Operation :=
  { name := "setApiKey", apply := fun _ => .error "command failed" }

/-- A concrete active-model operation, as built by `createSetModel`. -/
def opSetModel : Operation :=
  { name := "setModel"
    apply := fun doc => .ok (setModel "anthropic/claude-opus-4-6" doc) }

/-- A concrete looping menu over a `Nat` counter context, used to exercise
the menu engine. -/
def counterMenu : MenuConfig Nat :=
  { message := "config_action_prompt"
    items := [ { label := "add", value := "add", action := some (· + 1) },
               { label := "exit", value := MENU_EXIT } ]
    loop := true
    context := 0 }

/-! ## Helper lemmas -/

theorem recordGet_recordSet (r : List (String × α)) (k : String) (v : α) :
    recordGet (recordSet r k v) k = some v := by
  induction r with
  | nil => simp [recordGet, recordSet, List.find?]
  | cons e rest ih =>
    by_cases h : e.1 = k
    · simp [recordSet, h, recordGet, List.find?]
    · simpa [recordSet, h, recordGet, List.find?, h, beq_iff_eq] using ih

theorem mem_keys_of_recordGet {r : List (String × α)} {k : String} {v : α}
    (h : recordGet r k = some v) : k ∈ r.map (·.1) := by
  simp only [recordGet, Option.map_eq_some'] at h
  obtain ⟨e, he, -⟩ := h
  have hmem := List.mem_of_find?_eq_some he
  have hkey := List.find?_some he
  simp only [beq_iff_eq] at hkey
  exact hkey ▸ List.mem_map_of_mem (·.1) hmem

theorem strStartsWith_iff (k p : String) :
    strStartsWith k p = true ↔ ∃ t, p.data ++ t = k.data := by
  simp only [strStartsWith, List.isPrefixOf_iff_prefix]
  exact Iff.rfl

theorem provider_name_no_slash (p : SupportedProvider) : '/' ∉ p.name.data := by
  cases p <;> decide

theorem afterFirstSlash_append (xs rest : List Char) (h : '/' ∉ xs) :
    afterFirstSlash (xs ++ '/' :: rest) = some rest := by
  induction xs with
  | nil => simp [afterFirstSlash]
  | cons c cs ih =>
    simp only [List.mem_cons, not_or] at h
    simp [afterFirstSlash, Ne.symm h.1, ih h.2]

/-! ## C5: the escape-hatch vendor returns the input unchanged -/

/-- C5: for the escape-hatch vendor `"other"` (no allowed providers, empty
catalog), `filterModelsByVendor` returns the input model list unchanged, with
identical content and order, for every input list. -/
theorem filterModelsByVendor_other (models : List OpenclawModel) :
    filterModelsByVendor models "other" = models := rfl

/-! ## C6: setProviderConfig touches only the models subtree -/

/-- C6: `setProviderConfig` modifies only the `models` subtree — setting
`models.mode` to `"merge"` and the entry of the provider in `models.providers`,
creating the subtrees if absent — and preserves every other top-level part of
the document verbatim (`agents`, `meta`, and all unknown keys, e.g. a
`"customField": 42` entry). -/
theorem setProviderConfig_frame (doc : OpenclawConfig)
    (provider : SupportedProvider) (config : ProviderConfig) :
    (setProviderConfig provider config doc).agents = doc.agents ∧
    (setProviderConfig provider config doc).meta = doc.meta ∧
    (setProviderConfig provider config doc).extra = doc.extra ∧
    (setProviderConfig provider config doc).models =
      some { mode := some "merge"
             providers := some (recordSet ((doc.models.getD {}).providers.getD [])
               provider.name config) } ∧
    (("customField", JsonValue.num 42) ∈ doc.extra →
      ("customField", JsonValue.num 42) ∈ (setProviderConfig provider config doc).extra) :=
  ⟨rfl, rfl, rfl, rfl, fun h => h⟩

/-- Witness for C6 at a concrete document carrying `"customField": 42`. -/
theorem setProviderConfig_frame_witness :
    ("customField", JsonValue.num 42) ∈
      (OpenclawConfig.extra { extra := [("customField", JsonValue.num 42)] }) ∧
    ("customField", JsonValue.num 42) ∈
      (setProviderConfig .anthropic { baseUrl := "https://cdn.12ai.org" }
        { extra := [("customField", JsonValue.num 42)] }).extra :=
  ⟨List.mem_singleton.mpr rfl,
    (setProviderConfig_frame { extra := [("customField", JsonValue.num 42)] }
      .anthropic { baseUrl := "https://cdn.12ai.org" }).2.2.2.2
      (List.mem_singleton.mpr rfl)⟩

/-! ## C7: setModel writes the primary pointer and the per-model entry -/

/-- C7: after `setModel k`, the field `agents.defaults.model.primary` of the document
equals `k` and the `agents.defaults.models` map has an entry for `k`, created
empty when it was absent and left unchanged when it was present; all the
intermediate subtrees are created as needed (witnessed by the reads
succeeding). -/
theorem setModel_spec (doc : OpenclawConfig) (k : String) :
    getPrimaryModel (setModel k doc) = some k ∧
    k ∈ getConfiguredModels (setModel k doc) ∧
    modelEntry (setModel k doc) k = some ((modelEntry doc k).getD []) := by
  have hentry : modelEntry (setModel k doc) k = some ((modelEntry doc k).getD []) := by
    obtain ⟨m, a, me, ex⟩ := doc
    cases a with
    | none => simp [setModel, modelEntry, recordGet_recordSet, recordGet, List.find?]
    | some a =>
      obtain ⟨d⟩ := a
      cases d with
      | none => simp [setModel, modelEntry, recordGet_recordSet, recordGet, List.find?]
      | some d =>
        obtain ⟨mo, ms⟩ := d
        cases ms with
        | none => simp [setModel, modelEntry, recordGet_recordSet, recordGet, List.find?]
        | some ms =>
          by_cases hg : (recordGet ms k).isNone
          · rw [Option.isNone_iff_eq_none] at hg
            simp [setModel, modelEntry, Option.isNone_iff_eq_none, hg, recordGet_recordSet]
          · obtain ⟨v, hv⟩ := Option.ne_none_iff_exists'.mp
              (by simpa [Option.isNone_iff_eq_none] using hg)
            simp [setModel, modelEntry, hv, Option.isNone_iff_eq_none]
  refine ⟨rfl, ?_, hentry⟩
  have := mem_keys_of_recordGet hentry
  obtain ⟨m, a, me, ex⟩ := doc
  simpa [setModel, modelEntry, getConfiguredModels] using this

/-! ## C4: characterization of isSupportedProvider -/

/-- C4: `isSupportedProvider k P` (with `P` defaulting to the full enumeration
when omitted) returns a provider of `P` iff some provider of `P`, followed by
`/`, is a literal character prefix of `k`, and returns `none` otherwise; when
several providers of `P` match, the first one in list order is returned. -/
theorem isSupportedProvider_spec (k : String)
    (opt : Option (List SupportedProvider)) :
    ((∃ p, isSupportedProvider k opt = some p ∧ p ∈ opt.getD SUPPORTED_PROVIDERS) ↔
      ∃ p ∈ opt.getD SUPPORTED_PROVIDERS, ∃ t, (p.name ++ "/").data ++ t = k.data) ∧
    (isSupportedProvider k opt = none ↔
      ∀ p ∈ opt.getD SUPPORTED_PROVIDERS, ¬ ∃ t, (p.name ++ "/").data ++ t = k.data) ∧
    (∀ (l₁ : List SupportedProvider) (p : SupportedProvider)
        (l₂ : List SupportedProvider),
      opt.getD SUPPORTED_PROVIDERS = l₁ ++ p :: l₂ →
      (∃ t, (p.name ++ "/").data ++ t = k.data) →
      (∀ q ∈ l₁, ¬ ∃ t, (q.name ++ "/").data ++ t = k.data) →
      isSupportedProvider k opt = some p) := by
  refine ⟨⟨?_, ?_⟩, ⟨?_, ?_⟩, ?_⟩
  · rintro ⟨p, hp, -⟩
    have hmem := List.mem_of_find?_eq_some hp
    have hpred := List.find?_some hp
    exact ⟨p, hmem, (strStartsWith_iff _ _).mp hpred⟩
  · rintro ⟨p, hmem, hpre⟩
    cases hfind : isSupportedProvider k opt with
    | none =>
      rw [isSupportedProvider, List.find?_eq_none] at hfind
      exact absurd ((strStartsWith_iff _ _).mpr hpre) (hfind p hmem)
    | some q => exact ⟨q, rfl, List.mem_of_find?_eq_some hfind⟩
  · intro hnone p hmem hpre
    rw [isSupportedProvider, List.find?_eq_none] at hnone
    exact hnone p hmem ((strStartsWith_iff _ _).mpr hpre)
  · intro h
    rw [isSupportedProvider, List.find?_eq_none]
    intro p hmem hpred
    exact h p hmem ((strStartsWith_iff _ _).mp hpred)
  · intro l₁ p l₂ hsplit hpre hbefore
    rw [isSupportedProvider, List.find?_eq_some]
    refine ⟨(strStartsWith_iff _ _).mpr hpre, l₁, l₂, hsplit, ?_⟩
    intro q hq
    simp only [Bool.not_eq_true']
    exact Bool.not_eq_true _ ▸ fun hc =>
      hbefore q hq ((strStartsWith_iff _ _).mp hc)

/-- Witness for C4, exercising the iff at a concrete key. -/
theorem isSupportedProvider_spec_witness :
    ∃ p, isSupportedProvider "zai/glm-5" none = some p ∧
      p ∈ Option.getD none SUPPORTED_PROVIDERS :=
  (isSupportedProvider_spec "zai/glm-5" none).1.mpr
    ⟨.zai, by decide, "glm-5".data, rfl⟩

/-! ## C10: provider classification and suffix extraction decompose a key -/

/-- C10: whenever `isSupportedProvider` recognizes a provider `p` in a model
key `k`, the concatenation `p ++ "/" ++ getModelSuffix k` reconstructs `k`
exactly. -/
theorem provider_suffix_roundtrip (k : String)
    (opt : Option (List SupportedProvider)) (p : SupportedProvider)
    (h : isSupportedProvider k opt = some p) :
    p.name ++ "/" ++ getModelSuffix k = k := by
  rw [isSupportedProvider] at h
  have hpred := List.find?_some h
  obtain ⟨t, ht⟩ := (strStartsWith_iff _ _).mp hpred
  have hdata : k.data = p.name.data ++ '/' :: t := by
    rw [← ht]; simp
  have hsuf : getModelSuffix k = String.mk t := by
    rw [getModelSuffix, hdata, afterFirstSlash_append _ _ (provider_name_no_slash p)]
  apply String.ext
  rw [String.data_append, String.data_append, hsuf, hdata]
  simp

/-- Witness for C10 at the key `google/gemini-3-pro-preview`. -/
theorem provider_suffix_roundtrip_witness :
    isSupportedProvider "google/gemini-3-pro-preview" none =
      some SupportedProvider.google ∧
    SupportedProvider.name .google ++ "/" ++
      getModelSuffix "google/gemini-3-pro-preview" = "google/gemini-3-pro-preview" :=
  ⟨by decide,
    provider_suffix_roundtrip "google/gemini-3-pro-preview" none .google (by decide)⟩

/-! ## C8: findVendorModel looks up by suffix and resolved provider -/

/-- C8: `findVendorModel vendorId modelKey` returns a catalog entry of that
vendor whose name equals the computed suffix of the key and whose provider
equals the provider resolved from the key, and returns `none` when the vendor
is unknown or no such catalog entry exists. -/
theorem findVendorModel_spec (vendor modelKey : String) :
    (∀ vm, findVendorModel vendor modelKey = some vm →
      ∃ filter, VENDOR_FILTERS vendor = some filter ∧ vm ∈ filter.models ∧
        vm.name = getModelSuffix modelKey ∧
        some vm.provider = isSupportedProvider modelKey) ∧
    (VENDOR_FILTERS vendor = none → findVendorModel vendor modelKey = none) ∧
    (∀ filter, VENDOR_FILTERS vendor = some filter →
      (∀ vm ∈ filter.models, ¬(vm.name = getModelSuffix modelKey ∧
        some vm.provider = isSupportedProvider modelKey)) →
      findVendorModel vendor modelKey = none) := by
  refine ⟨?_, ?_, ?_⟩
  · intro vm hvm
    cases hv : VENDOR_FILTERS vendor with
    | none => rw [findVendorModel, hv] at hvm; exact absurd hvm (by simp)
    | some filter =>
      rw [findVendorModel, hv] at hvm
      have hmem := List.mem_of_find?_eq_some hvm
      have hpred := List.find?_some hvm
      exact ⟨filter, rfl, hmem, of_decide_eq_true hpred⟩
  · intro hv
    rw [findVendorModel, hv]
  · intro filter hv hnone
    rw [findVendorModel, hv]
    simp only [List.find?_eq_none]
    intro vm hmem
    simpa using hnone vm hmem

theorem contains_eq_decide_mem (l : List String) (s : String) :
    l.contains s = decide (s ∈ l) := by
  simp

theorem appendMissing_eq_specSynthesize (catalog : List VendorModel) :
    ∀ keys, appendMissing catalog keys = specSynthesize catalog keys := by
  induction catalog with
  | nil => intro keys; rfl
  | cons vm rest ih =>
    intro keys
    simp only [appendMissing, specSynthesize, contains_eq_decide_mem]
    by_cases h : vmKey vm ∈ keys
    · simp [h, ih]
    · simp [h, ih]

theorem mem_appendMissing {x : OpenclawModel} :
    ∀ {catalog : List VendorModel} {keys : List String},
      x ∈ appendMissing catalog keys → ∃ vm ∈ catalog, x = syntheticEntry vm := by
  intro catalog
  induction catalog with
  | nil => intro keys h; simp [appendMissing] at h
  | cons vm rest ih =>
    intro keys h
    simp only [appendMissing] at h
    by_cases hc : keys.contains (vmKey vm)
    · rw [if_pos hc] at h
      obtain ⟨vm', hmem, heq⟩ := ih h
      exact ⟨vm', List.mem_cons_of_mem _ hmem, heq⟩
    · rw [if_neg hc] at h
      rcases List.mem_cons.mp h with heq | htail
      · exact ⟨vm, List.mem_cons_self _ _, heq⟩
      · obtain ⟨vm', hmem, heq⟩ := ih htail
        exact ⟨vm', List.mem_cons_of_mem _ hmem, heq⟩

theorem appendMissing_eq_nil {catalog : List VendorModel} {keys : List String}
    (h : ∀ vm ∈ catalog, keys.contains (vmKey vm) = true) :
    appendMissing catalog keys = [] := by
  induction catalog with
  | nil => rfl
  | cons vm rest ih =>
    simp only [appendMissing, h vm (List.mem_cons_self _ _), if_pos]
    exact ih fun vm' hm => h vm' (List.mem_cons_of_mem _ hm)

theorem syntheticEntry_mem_appendMissing {vm : VendorModel} :
    ∀ {catalog : List VendorModel} {keys : List String}, vm ∈ catalog →
      (catalog.map vmKey).Nodup → keys.contains (vmKey vm) = false →
      syntheticEntry vm ∈ appendMissing catalog keys := by
  intro catalog
  induction catalog with
  | nil => intro keys h; simp at h
  | cons vm' rest ih =>
    intro keys hmem hnodup hkeys
    rcases List.mem_cons.mp hmem with heq | htail
    · subst heq
      simp only [appendMissing, hkeys, if_neg, Bool.false_eq_true, not_false_iff]
      exact List.mem_cons_self _ _
    · have hnd : vmKey vm' ∉ rest.map vmKey ∧ (rest.map vmKey).Nodup := by
        rw [List.map_cons, List.nodup_cons] at hnodup
        exact hnodup
      have hne : vmKey vm ≠ vmKey vm' := by
        intro hc
        exact hnd.1 (hc ▸ List.mem_map_of_mem vmKey htail)
      simp only [appendMissing]
      by_cases hc : keys.contains (vmKey vm')
      · rw [if_pos hc]
        exact ih htail hnd.2 hkeys
      · rw [if_neg hc]
        refine List.mem_cons_of_mem _ (ih htail hnd.2 ?_)
        simp only [contains_eq_decide_mem, decide_eq_false_iff_not,
          List.mem_cons, not_or] at hkeys ⊢
        exact ⟨hne, hkeys⟩

theorem appendMissing_congr {catalog : List VendorModel} :
    ∀ {keys₁ keys₂ : List String},
      (∀ vm ∈ catalog, keys₁.contains (vmKey vm) = keys₂.contains (vmKey vm)) →
      appendMissing catalog keys₁ = appendMissing catalog keys₂ := by
  induction catalog with
  | nil => intro _ _ _; rfl
  | cons vm rest ih =>
    intro keys₁ keys₂ h
    simp only [appendMissing, h vm (List.mem_cons_self _ _)]
    by_cases hc : keys₂.contains (vmKey vm)
    · rw [if_pos hc, if_pos hc]
      exact ih fun vm' hm => h vm' (List.mem_cons_of_mem _ hm)
    · rw [if_neg hc, if_neg hc]
      refine congrArg _ (ih fun vm' hm => ?_)
      simp only [List.contains_cons, h vm' (List.mem_cons_of_mem _ hm)]

theorem twelve_predKey :
    ∀ vm ∈ TWELVE_API_MODELS, predKey twelveApiFilter (vmKey vm) = true := by
  decide

theorem twelve_nodup : (TWELVE_API_MODELS.map vmKey).Nodup := by decide

theorem filterModelsByVendor_12api (models : List OpenclawModel) :
    filterModelsByVendor models "12api" =
      models.filter (vendorPred twelveApiFilter) ++
        appendMissing TWELVE_API_MODELS (models.map (·.key)) := rfl

theorem filterModelsByVendor_ne (models : List OpenclawModel) {v : String}
    (h : v ≠ "12api") : filterModelsByVendor models v = models := by
  rw [filterModelsByVendor, VENDOR_FILTERS, if_neg h]
  by_cases h2 : v = "other" <;> simp [h2, otherFilter]

/-! ## C2: synthesis of catalog-only entries -/

/-- C2: for every registry model list and every vendor whose filter is
non-empty, `filterModelsByVendor` appends, after the filtered registry
entries, one synthetic entry for every catalog entry whose `provider/name`
key is not already present in the filtered result, preserving catalog order
and skipping duplicates by key; every synthetic entry has `available = true`,
`missing = false`, `contextWindow = 0` and empty tags, and every catalog
entry whose key is absent from the registry contributes its synthetic
entry. -/
theorem filterModelsByVendor_synthesizes (models : List OpenclawModel)
    (v : String) (filter : VendorFilter)
    (hf : VENDOR_FILTERS v = some filter)
    (hne : ¬(filter.providers = [] ∧ filter.models = [])) :
    filterModelsByVendor models v =
      models.filter (vendorPred filter) ++
        specSynthesize filter.models
          ((models.filter (vendorPred filter)).map (·.key)) ∧
    (∀ x ∈ specSynthesize filter.models
        ((models.filter (vendorPred filter)).map (·.key)),
      x.available = true ∧ x.missing = false ∧ x.contextWindow = 0 ∧
        x.tags = []) ∧
    (∀ vm ∈ filter.models, vmKey vm ∉ models.map (·.key) →
      syntheticEntry vm ∈ filterModelsByVendor models v) := by
  rw [VENDOR_FILTERS] at hf
  split_ifs at hf with h1 h2
  · subst h1
    injection hf with hf
    subst hf
    have hagree : ∀ vm ∈ TWELVE_API_MODELS,
        (models.map (·.key)).contains (vmKey vm) =
          ((models.filter (vendorPred twelveApiFilter)).map (·.key)).contains
            (vmKey vm) := by
      intro vm hvm
      rw [contains_eq_decide_mem, contains_eq_decide_mem, decide_eq_decide]
      constructor
      · intro hc
        obtain ⟨m, hm, hkey⟩ := List.mem_map.mp hc
        refine List.mem_map.mpr ⟨m, List.mem_filter.mpr ⟨hm, ?_⟩, hkey⟩
        show predKey twelveApiFilter m.key = true
        rw [show m.key = vmKey vm from hkey]
        exact twelve_predKey vm hvm
      · intro hc
        obtain ⟨m, hm, hkey⟩ := List.mem_map.mp hc
        exact List.mem_map.mpr ⟨m, (List.mem_filter.mp hm).1, hkey⟩
    refine ⟨?_, ?_, ?_⟩
    · rw [filterModelsByVendor_12api]
      rw [appendMissing_congr hagree, appendMissing_eq_specSynthesize]
      rfl
    · intro x hx
      rw [← appendMissing_eq_specSynthesize] at hx
      obtain ⟨vm, hvm, rfl⟩ := mem_appendMissing hx
      exact ⟨rfl, rfl, rfl, rfl⟩
    · intro vm hvm hnot
      rw [filterModelsByVendor_12api]
      refine List.mem_append_right _
        (syntheticEntry_mem_appendMissing hvm twelve_nodup ?_)
      rw [contains_eq_decide_mem]
      exact decide_eq_false hnot
  · injection hf with hf
    subst hf
    exact absurd ⟨rfl, rfl⟩ hne

/-- Witness for C2: with an empty registry and the `"12api"` vendor, the
catalog entry `{name: gemini-3-pro-preview, provider: google}` yields an
appended synthetic entry with key `google/gemini-3-pro-preview`,
`available = true`, `missing = false`. -/
theorem filterModelsByVendor_synthesizes_witness :
    VENDOR_FILTERS "12api" = some twelveApiFilter ∧
    ¬(twelveApiFilter.providers = [] ∧ twelveApiFilter.models = []) ∧
    syntheticEntry { name := "gemini-3-pro-preview", provider := .google } ∈
      filterModelsByVendor [] "12api" :=
  ⟨rfl, by decide,
    (filterModelsByVendor_synthesizes [] "12api" twelveApiFilter rfl
      (by decide)).2.2
      { name := "gemini-3-pro-preview", provider := .google }
      (by decide) (by simp)⟩

/-! ## C3: filterModelsByVendor is idempotent -/

/-- C3: for every registry model list and every vendor, applying
`filterModelsByVendor` to its own output for the same vendor yields an
identical sequence — same entries, same order, no duplicate synthesized
entries. -/
theorem filterModelsByVendor_idempotent (models : List OpenclawModel)
    (v : String) :
    filterModelsByVendor (filterModelsByVendor models v) v =
      filterModelsByVendor models v := by
  by_cases h1 : v = "12api"
  · subst h1
    have hpred_out : ∀ x ∈ filterModelsByVendor models "12api",
        vendorPred twelveApiFilter x = true := by
      intro x hx
      rw [filterModelsByVendor_12api] at hx
      rcases List.mem_append.mp hx with hx | hx
      · exact (List.mem_filter.mp hx).2
      · obtain ⟨vm, hvm, rfl⟩ := mem_appendMissing hx
        exact twelve_predKey vm hvm
    have hfilter_out : (filterModelsByVendor models "12api").filter
        (vendorPred twelveApiFilter) = filterModelsByVendor models "12api" :=
      List.filter_eq_self.mpr hpred_out
    have hkeys_out : ∀ vm ∈ TWELVE_API_MODELS,
        ((filterModelsByVendor models "12api").map (·.key)).contains
          (vmKey vm) = true := by
      intro vm hvm
      rw [contains_eq_decide_mem, decide_eq_true_eq]
      by_cases hc : vmKey vm ∈ models.map (·.key)
      · obtain ⟨m, hm, hkey⟩ := List.mem_map.mp hc
        have hmf : m ∈ models.filter (vendorPred twelveApiFilter) :=
          List.mem_filter.mpr ⟨hm, by
            show predKey twelveApiFilter m.key = true
            rw [show m.key = vmKey vm from hkey]
            exact twelve_predKey vm hvm⟩
        rw [filterModelsByVendor_12api]
        exact List.mem_map.mpr ⟨m, List.mem_append_left _ hmf, hkey⟩
      · have hmem : syntheticEntry vm ∈
            appendMissing TWELVE_API_MODELS (models.map (·.key)) :=
          syntheticEntry_mem_appendMissing hvm twelve_nodup
            (by rw [contains_eq_decide_mem]; exact decide_eq_false hc)
        rw [filterModelsByVendor_12api]
        exact List.mem_map.mpr
          ⟨syntheticEntry vm, List.mem_append_right _ hmem, rfl⟩
    conv_lhs => rw [filterModelsByVendor_12api]
    rw [hfilter_out, appendMissing_eq_nil hkeys_out, List.append_nil]
  · rw [filterModelsByVendor_ne models h1, filterModelsByVendor_ne models h1]

/-- Witness for C8 at the documented example key `moonshot/kimi-k2.5`. -/
theorem findVendorModel_spec_witness :
    findVendorModel "12api" "moonshot/kimi-k2.5" =
      some { name := "kimi-k2.5", provider := .moonshot,
             api := some .anthropicMessages } ∧
    ∃ filter, VENDOR_FILTERS "12api" = some filter ∧
      ({ name := "kimi-k2.5", provider := .moonshot,
         api := some .anthropicMessages } : VendorModel) ∈ filter.models ∧
      ("kimi-k2.5" : String) = getModelSuffix "moonshot/kimi-k2.5" ∧
      some SupportedProvider.moonshot = isSupportedProvider "moonshot/kimi-k2.5" :=
  ⟨by decide,
    (findVendorModel_spec "12api" "moonshot/kimi-k2.5").1
      { name := "kimi-k2.5", provider := .moonshot, api := some .anthropicMessages }
      (by decide)⟩

/-! ## C1: fail-fast pipeline with unconditional finalization -/

theorem runOpsAux_append (pre : List Operation) :
    ∀ doc mid, applyAll pre doc = .ok mid →
      ∀ rest, runOpsAux (pre ++ rest) doc = runOpsAux rest mid := by
  induction pre with
  | nil =>
    intro doc mid h rest
    injection h with h
    subst h
    rfl
  | cons op pre' ih =>
    intro doc mid h rest
    cases hop : op.apply doc with
    | ok doc' =>
      simp only [applyAll, hop] at h
      simp only [List.cons_append, runOpsAux, hop]
      exact ih doc' mid h rest
    | error e =>
      simp only [applyAll, hop] at h
      exact Except.noConfusion h

/-- C1: when the operations are a successful sequence `pre` reaching state
`mid`, then an operation `op` failing at `mid`, then any tail `post`, the
pipeline applies every operation of `pre` (the final document extends `mid`),
executes nothing of `post` (the result does not depend on it), still runs the
finalization step, which stamps `meta.lastTouchedAt`, and reports the failure
under the name of `op`. -/
theorem runOperations_failfast (pre : List Operation) (op : Operation)
    (post : List Operation) (doc mid : OpenclawConfig) (now e : String)
    (hpre : applyAll pre doc = .ok mid) (hop : op.apply mid = .error e) :
    runOperations (pre ++ op :: post) doc now =
      (triggerGatewayRestart now mid, .failed op.name e) ∧
    (triggerGatewayRestart now mid).meta =
      some { lastTouchedAt := some now } := by
  have haux : runOpsAux (pre ++ op :: post) doc = (mid, .failed op.name e) := by
    rw [runOpsAux_append pre doc mid hpre]
    simp [runOpsAux, hop]
  refine ⟨?_, rfl⟩
  cases pre with
  | nil =>
    simp only [List.nil_append] at haux ⊢
    simp [runOperations, haux]
  | cons p pre' =>
    simp only [List.cons_append] at haux ⊢
    simp [runOperations, haux]

/-- Witness for C1: the operation list `[setProviderConfig (succeeds),
setApiKey (fails), setModel (never runs)]` applies the first operation,
reports the failure under `"setApiKey"`, and still finalizes the timestamp. -/
theorem runOperations_failfast_witness :
    applyAll [opSetProvider] (⟨none, none, none, []⟩ : OpenclawConfig) =
      .ok (setProviderConfig .anthropic { baseUrl := "https://cdn.12ai.org" }
        ⟨none, none, none, []⟩) ∧
    opSetApiKey.apply (setProviderConfig .anthropic
      { baseUrl := "https://cdn.12ai.org" } ⟨none, none, none, []⟩) =
      .error "command failed" ∧
    runOperations [opSetProvider, opSetApiKey, opSetModel]
        ⟨none, none, none, []⟩ "2026-02-03T04:05:06.000Z" =
      (triggerGatewayRestart "2026-02-03T04:05:06.000Z"
        (setProviderConfig .anthropic { baseUrl := "https://cdn.12ai.org" }
          ⟨none, none, none, []⟩),
       .failed "setApiKey" "command failed") :=
  ⟨rfl, rfl,
    (runOperations_failfast [opSetProvider] opSetApiKey [opSetModel]
      ⟨none, none, none, []⟩ _ "2026-02-03T04:05:06.000Z" "command failed"
      rfl rfl).1⟩

/-! ## C9: the looping menu re-renders until the EXIT sentinel -/

/-- C9: with `loop = true` and non-throwing actions attached to the selected
items, the menu renders once per selection, invokes the selected action after
each render, re-renders, and when the EXIT sentinel is finally chosen it
terminates with the `exited` outcome after one last render, invoking no
action for that final selection. -/
theorem runMenu_loop_exit {σ : Type} (cfg : MenuConfig σ) (sels : List String)
    (hloop : cfg.loop = true)
    (hne : ∀ v ∈ sels, v ≠ MENU_EXIT)
    (hact : ∀ v ∈ sels,
      ((cfg.items.find? (fun it => it.value == v)).bind (·.action)).isSome = true) :
    (runMenu cfg (sels ++ [MENU_EXIT])).2.1 = .exited ∧
    (runMenu cfg (sels ++ [MENU_EXIT])).1 =
      (sels.map (fun v => [MenuEvent.render, MenuEvent.invoke v])).flatten ++
        [MenuEvent.render] ∧
    MenuEvent.invoke MENU_EXIT ∉ (runMenu cfg (sels ++ [MENU_EXIT])).1 := by
  induction sels generalizing cfg with
  | nil =>
    refine ⟨rfl, rfl, ?_⟩
    simp [runMenu, MENU_EXIT]
  | cons v rest ih =>
    have hv : v ≠ MENU_EXIT := hne v (List.mem_cons_self _ _)
    obtain ⟨act, hact'⟩ := Option.isSome_iff_exists.mp
      (hact v (List.mem_cons_self _ _))
    have hrec := ih { cfg with loop := true, context := act cfg.context } rfl
      (fun w hw => hne w (List.mem_cons_of_mem _ hw))
      (fun w hw => hact w (List.mem_cons_of_mem _ hw))
    simp only [List.cons_append, runMenu, if_neg hv, hact', hloop, if_true]
    refine ⟨hrec.1, ?_, ?_⟩
    · simp only [List.append_eq, List.map_cons, List.flatten_cons, hrec.2.1,
        List.cons_append, List.nil_append]
    · intro hmem
      rcases List.mem_cons.mp hmem with h | h
      · cases h
      · rcases List.mem_cons.mp h with h' | h'
        · exact hv (by injection h' with h'; exact h'.symm) |>.elim
        · exact hrec.2.2 h'

/-- Witness for C9: a looping two-item menu whose "add" action increments a
counter, driven by the selections `add, add, EXIT`. -/
theorem runMenu_loop_exit_witness :
    counterMenu.loop = true ∧
    (∀ v ∈ ["add", "add"], v ≠ MENU_EXIT) ∧
    (∀ v ∈ ["add", "add"],
      ((counterMenu.items.find? (fun it => it.value == v)).bind
        (·.action)).isSome = true) ∧
    (runMenu counterMenu (["add", "add"] ++ [MENU_EXIT])).2.1 =
      MenuOutcome.exited ∧
    (runMenu counterMenu (["add", "add"] ++ [MENU_EXIT])).1 =
      ((["add", "add"]).map
        (fun v => [MenuEvent.render, MenuEvent.invoke v])).flatten ++
        [MenuEvent.render] :=
  ⟨rfl, by decide, by decide,
    (runMenu_loop_exit counterMenu ["add", "add"] rfl (by decide)
      (by decide)).1,
    (runMenu_loop_exit counterMenu ["add", "add"] rfl (by decide)
      (by decide)).2.1⟩
